import Mathlib

/-!
# goweb: Blob reader and File.LastModified

A shallow embedding of `blob/blob.go` (the `Reader` built by `Blob.NewReader`,
its terminal-event handler, `Reader.Abort`, `Reader.Read`) and of
`file/file.go` (`File.LastModified`).

Mutable Go state is an explicit `Reader` record passed in and out of every
operation.  The browser platform is an external collaborator: what it reports
to the code (the FileReader's `error`, `readyState` and `result` properties,
whether a call raises) is an input of the embedded functions, and what the code
asks of it (calls, listener registrations) is an output, a list of
`PlatformCall`.
-/

namespace Goweb

/-! ## Go values -/

/-- A byte of a Go `[]byte`. -/
abbrev Byte := Fin 256

/-- A reference to a platform (JavaScript) object, `*js.Object`. -/
structure JsObject where
  ref : Nat
  deriving DecidableEq, Repr

/-- Go `error` values occurring in the program. -/
inductive GoError where
  /-- The sentinel `io.EOF`. -/
  | EOF
  /-- The result of `errors.New(msg)`. -/
  | errorsNew (msg : String)
  /-- The wrapper `&js.Error{obj}` around a platform error object. -/
  | jsError (obj : JsObject)
  deriving DecidableEq, Repr

/-- Values a Go `panic` can carry, as seen by `recover()`. -/
inductive PanicValue where
  /-- A Go `string`. -/
  | str (s : String)
  /-- A `*js.Error`: what GopherJS panics with when a JavaScript call throws. -/
  | jsError (obj : JsObject)
  /-- A `runtime.Error` raised by the Go runtime itself. -/
  | runtimeError (msg : String)
  deriving DecidableEq, Repr

/-- What a call into the platform does: return normally or raise. -/
inductive CallOutcome where
  | returns
  | panics (v : PanicValue)
  deriving DecidableEq, Repr

/-- Requests the code makes of the platform, in program order. -/
inductive PlatformCall where
  /-- The statement `target.addEventListener(name, listener, opts)`. -/
  | addEventListener (target : JsObject) (name : String)
  /-- The statement `target.Call(method, args...)`. -/
  | call (target : JsObject) (method : String) (args : List JsObject)
  deriving DecidableEq, Repr

/-! ## `bytes.Reader` (Go standard library) -/

/-- The fields of `bytes.Reader` that `Read` uses: the slice `s` and the
reading index `i`. -/
structure BytesReader where
  s : List Byte
  i : Nat
  deriving DecidableEq, Repr

/-- The constructor `bytes.NewReader(b)`. -/
def bytesNewReader (b : List Byte) : BytesReader := { s := b, i := 0 }

/-- Go builtin `copy(dst, src)`: overwrites the first `min(len dst, len src)`
elements of `dst`; returns that count and the updated `dst`. -/
def goCopy (dst src : List Byte) : Nat × List Byte :=
  let n := min dst.length src.length
  (n, src.take n ++ dst.drop n)

/-- Method `(*bytes.Reader).Read`:
```
if r.i >= int64(len(r.s)) { return 0, io.EOF }
n = copy(b, r.s[r.i:]); r.i += int64(n); return
```
Returns the count, the error, the buffer after the call and the reader after
the call. -/
def BytesReader.Read (r : BytesReader) (b : List Byte) :
    (Nat × Option GoError × List Byte) × BytesReader :=
  if r.i ≥ r.s.length then
    ((0, some GoError.EOF, b), r)
  else
    let cp := goCopy b (r.s.drop r.i)
    ((cp.1, none, cp.2), { r with i := r.i + cp.1 })

/-! ## `blob.Reader` -/

/-- The struct `Reader` of `blob.go`.  The channel `done` is represented by
whether it has been closed; `fr` is `none` for a nil pointer. -/
structure Reader where
  r : Option BytesReader
  err : Option GoError
  done : Bool
  fr : Option JsObject
  deriving DecidableEq, Repr

/-- What the platform FileReader reports when the terminal handler reads its
properties: `error` (`none` for null), `readyState`, and `result` (`none` for
null, otherwise the bytes of the ArrayBuffer). -/
structure FileReaderState where
  error : Option JsObject
  readyState : Int
  result : Option (List Byte)
  deriving DecidableEq, Repr

/-- The expression `js.Global.Get("Uint8Array").New(result).Interface().([]byte)`:
a typed array over a null buffer is empty. -/
def uint8ArrayBytes (result : Option (List Byte)) : List Byte :=
  result.getD []

/-- Modelled from the spec: `event.AddEventListener` of package
`github.com/flimzy/goweb/event`, which `blob.go` imports. The spec describes
its use as "subscription to the three terminal notifications": it registers the listener on `target` under the event name it
is given. -/
def eventAddEventListener (target : JsObject) (name : String) : List PlatformCall :=
  [PlatformCall.addEventListener target name]

/-- Function `(*Blob).NewReader`, lines 64-87, given the object `fr` that
`js.Global.Get("FileReader").New()` returned.  Returns the new `Reader` and the
requests made of the platform. The closure `handler` is `handler` below. -/
def NewReader (b fr : JsObject) : Reader × List PlatformCall :=
  let r : Reader := { r := none, err := none, done := false, fr := some fr }
  (r,
    eventAddEventListener fr "loaded" ++
    eventAddEventListener fr "onerror" ++
    eventAddEventListener fr "onabort" ++
    [PlatformCall.call fr "readAsArrayBuffer" [b]])

/-- The closure `handler` of `NewReader`, lines 71-81, run on the reader `r` it
captured, with `st` what the platform FileReader reports.
```
r.fr = nil
defer close(done)
if err := fr.Get("error"); err != nil { r.err = &js.Error{err} }
else if fr.Get("readyState").Int() != 2 { r.err = errors.New("Unexpected readyState") }
content := ...; r.r = bytes.NewReader(content)
```
The second component is the panic of `close(done)` on an already closed
channel, if any. -/
def handler (r : Reader) (st : FileReaderState) : Reader × Option PanicValue :=
  let r1 := { r with fr := none }
  let r2 :=
    match st.error with
    | some e => { r1 with err := some (GoError.jsError e) }
    | none =>
      if st.readyState ≠ 2 then
        { r1 with err := some (GoError.errorsNew "Unexpected readyState") }
      else r1
  let r3 := { r2 with r := some (bytesNewReader (uint8ArrayBytes st.result)) }
  if r3.done then
    (r3, some (PanicValue.runtimeError "close of closed channel"))
  else
    ({ r3 with done := true }, none)

/-- How a call of `Abort` ends. -/
inductive AbortResult where
  /-- Returns `err` (`none` for nil). -/
  | returned (err : Option GoError)
  /-- The panic leaves `Abort`. -/
  | panicked (v : PanicValue)
  deriving DecidableEq, Repr

/-- The body of `Abort`, lines 98-102, before the deferred function runs:
either the value to return or the panic raised by `r.fr.Call("abort")`, whose
behaviour `platformAbort` is the platform's. -/
def abortBody (r : Reader) (platformAbort : CallOutcome) :
    Except PanicValue (Option GoError) × List PlatformCall :=
  match r.fr with
  | some fr =>
    match platformAbort with
    | CallOutcome.returns => (Except.ok none, [PlatformCall.call fr "abort" []])
    | CallOutcome.panics v => (Except.error v, [PlatformCall.call fr "abort" []])
  | none => (Except.ok (some (GoError.errorsNew "Read not in progress")), [])

/-- The deferred function of `Abort`, lines 93-97:
`if r := recover(); r != nil { err = errors.New(r.(string)) }`.
The type assertion `r.(string)` itself panics when the recovered value is not a
string. -/
def abortDeferred (body : Except PanicValue (Option GoError)) : AbortResult :=
  match body with
  | Except.ok err => AbortResult.returned err
  | Except.error (PanicValue.str s) => AbortResult.returned (some (GoError.errorsNew s))
  | Except.error _ =>
    AbortResult.panicked
      (PanicValue.runtimeError "interface conversion: not a string")

/-- Method `(*Reader).Abort`, lines 92-103: result, reader afterwards (never
modified) and the requests made of the platform. -/
def Reader.Abort (r : Reader) (platformAbort : CallOutcome) :
    AbortResult × Reader × List PlatformCall :=
  let body := abortBody r platformAbort
  (abortDeferred body.1, r, body.2)

/-- How a call of `Read` ends. -/
inductive ReadOutcome where
  /-- The receive `<-r.done` does not complete: the channel is still open. -/
  | blocked
  /-- Nil dereference of `r.r`. -/
  | panicked
  /-- Returns `(n, err)`; `p` is the caller's buffer after the call. -/
  | returned (n : Nat) (err : Option GoError) (p : List Byte)
  deriving DecidableEq, Repr

/-- Method `(*Reader).Read`, lines 106-112, on the buffer `p`. -/
def Reader.Read (r : Reader) (p : List Byte) : ReadOutcome × Reader :=
  if r.done = false then
    (ReadOutcome.blocked, r)
  else
    match r.err with
    | some e => (ReadOutcome.returned 0 (some e) p, r)
    | none =>
      match r.r with
      | none => (ReadOutcome.panicked, r)
      | some br =>
        let res := br.Read p
        (ReadOutcome.returned res.1.1 res.1.2.1 res.1.2.2, { r with r := some res.2 })

/-! ## Sequences of operations on one `Reader` -/

/-- Successive `Read` calls, one per buffer of `ps`, each on the reader left by
the previous one: the outcomes in call order and the final reader. -/
def readSeq (r : Reader) : List (List Byte) → List ReadOutcome × Reader
  | [] => ([], r)
  | p :: ps =>
    let res := r.Read p
    let rest := readSeq res.2 ps
    (res.1 :: rest.1, rest.2)

/-- The bytes a `Read` call handed to its caller: the first `n` bytes of the
buffer. -/
def ReadOutcome.bytes : ReadOutcome → List Byte
  | ReadOutcome.returned n _ p => p.take n
  | _ => []

/-- Whether a `Read` call reported end of content, `io.EOF`. -/
def ReadOutcome.isEOF : ReadOutcome → Bool
  | ReadOutcome.returned _ (some GoError.EOF) _ => true
  | _ => false

/-- The bytes received by a caller that reads until the first call that
does not return a nil error (as `io.ReadAll` does): the bytes of every call up
to and including that one. -/
def collect : List ReadOutcome → List Byte
  | [] => []
  | ReadOutcome.returned n none p :: os => p.take n ++ collect os
  | o :: _ => o.bytes

/-- The listener names registered on `target` by a list of platform requests.
The platform invokes a listener for an event exactly when the event's name is
among them. -/
def registeredNames (target : JsObject) : List PlatformCall → List String
  | [] => []
  | PlatformCall.addEventListener t name :: cs =>
    if t = target then name :: registeredNames target cs else registeredNames target cs
  | _ :: cs => registeredNames target cs

/-- One thing that happens to a `Reader`: a call of `Abort` (with the behaviour
of the platform's abort call), a call of `Read` on a buffer, or the platform's
terminal event running the handler. -/
inductive Op where
  | abort (platformAbort : CallOutcome)
  | read (p : List Byte)
  | terminal (st : FileReaderState)
  deriving DecidableEq, Repr

/-- The reader after one operation. -/
def step (r : Reader) : Op → Reader
  | Op.abort o => (r.Abort o).2.1
  | Op.read p => (r.Read p).2
  | Op.terminal st => (handler r st).1

/-- The reader after a sequence of operations. -/
def run (r : Reader) : List Op → Reader
  | [] => r
  | o :: os => run (step r o) os

/-- Whether an operation is a terminal event. -/
def Op.isTerminal : Op → Bool
  | Op.terminal _ => true
  | _ => false

/-- The number of terminal events in a sequence of operations. -/
def terminalCount (ops : List Op) : Nat := (ops.filter Op.isTerminal).length

/-! ## `File.LastModified` -/

/-- Reduction of an integer to the range of Go `int64` (two's complement
wrap-around). -/
def wrapInt64 (x : Int) : Int := (x + 2 ^ 63) % 2 ^ 64 - 2 ^ 63

/-- Go `a / b` on `int64`: the quotient truncated toward zero. -/
def goDiv (a b : Int) : Int := wrapInt64 (Int.tdiv a b)

/-- Go `a % b` on `int64`: the remainder with the sign of the dividend. -/
def goMod (a b : Int) : Int := wrapInt64 (Int.tmod a b)

/-- A `time.Time` as observed through `t.Unix()` (seconds since the epoch) and
`t.Nanosecond()` (nanoseconds within that second). -/
structure Time where
  sec : Int
  nsec : Int
  deriving DecidableEq, Repr

/-- Function `time.Unix(sec, nsec)` of the Go standard library:
```
if nsec < 0 || nsec >= 1e9 {
  n := nsec / 1e9; sec += n; nsec -= n * 1e9
  if nsec < 0 { nsec += 1e9; sec-- }
}
```
-/
def timeUnix (sec nsec : Int) : Time :=
  if nsec < 0 ∨ nsec ≥ 1000000000 then
    let n := goDiv nsec 1000000000
    let sec1 := wrapInt64 (sec + n)
    let nsec1 := wrapInt64 (nsec - wrapInt64 (n * 1000000000))
    if nsec1 < 0 then
      { sec := wrapInt64 (sec1 - 1), nsec := wrapInt64 (nsec1 + 1000000000) }
    else
      { sec := sec1, nsec := nsec1 }
  else
    { sec := sec, nsec := nsec }

/-- Method `(*File).LastModified`, lines 26-29, with `ts` the `int64` read from
the platform property `lastModified`:
`time.Unix(ts/1000, (ts%1000)*1000000)`. -/
def LastModified (ts : Int) : Time :=
  timeUnix (goDiv ts 1000) (wrapInt64 (goMod ts 1000 * 1000000))

/-! ## The specification of `Read` on a completed reader -/

/-- What the specification says one `Read` returns on content `c` at cursor
`i` with buffer `p`: `n = min(len p, len c - i)` bytes `c[i .. i+n)` at the
front of the buffer, with end of content exactly when `i` is `len c`. -/
def specRead (c : List Byte) (i : Nat) (p : List Byte) : ReadOutcome :=
  ReadOutcome.returned (min p.length (c.length - i))
    (if i = c.length then some GoError.EOF else none)
    ((c.drop i).take (min p.length (c.length - i)) ++ p.drop (min p.length (c.length - i)))

/-- The outcomes the specification gives for successive calls from cursor `i`,
one per buffer. -/
def specSeq (c : List Byte) (i : Nat) : List (List Byte) → List ReadOutcome
  | [] => []
  | p :: ps => specRead c i p :: specSeq c (i + min p.length (c.length - i)) ps

/-- The cursor after successive calls from cursor `i`, one per buffer. -/
def specCursor (c : List Byte) (i : Nat) : List (List Byte) → Nat
  | [] => i
  | p :: ps => specCursor c (i + min p.length (c.length - i)) ps

/-! ## Example data -/

/-- The bytes of the text "hello world". -/
def helloWorld : List Byte := [104, 101, 108, 108, 111, 32, 119, 111, 114, 108, 100]

/-- The reader after the terminal handler ran with no platform error,
`readyState` 2 and the bytes of "hello world" as result. -/
def helloReader : Reader :=
  (handler (NewReader ⟨0⟩ ⟨1⟩).1 ⟨none, 2, some helloWorld⟩).1

/-- Four caller buffers of four bytes each. -/
def helloBufs : List (List Byte) := [[0, 0, 0, 0], [0, 0, 0, 0], [0, 0, 0, 0], [0, 0, 0, 0]]

/-! ## Arithmetic of `File.LastModified` -/

theorem tdiv_of_pos (a b : Int) (hb : 0 < b) :
    Int.tdiv a b = if 0 ≤ a then a / b else -((-a) / b) := by
  split
  · next h => exact Int.tdiv_eq_ediv h (le_of_lt hb)
  · next h =>
    have h1 : Int.tdiv (-(-a)) b = -(Int.tdiv (-a) b) := Int.neg_tdiv (-a) b
    rw [neg_neg] at h1
    rw [h1, Int.tdiv_eq_ediv (by omega) (le_of_lt hb)]

theorem wrapInt64_of_range (x : Int) (h1 : -2 ^ 63 ≤ x) (h2 : x < 2 ^ 63) :
    wrapInt64 x = x := by
  unfold wrapInt64
  omega

theorem goDiv_thousand (ts : Int) (h1 : -2 ^ 63 ≤ ts) (h2 : ts < 2 ^ 63) :
    goDiv ts 1000 = if 0 ≤ ts then ts / 1000 else -((-ts) / 1000) := by
  unfold goDiv
  rw [tdiv_of_pos ts 1000 (by norm_num)]
  apply wrapInt64_of_range <;> split <;> omega

theorem goMod_thousand (ts : Int) :
    goMod ts 1000 = if 0 ≤ ts then ts % 1000 else -((-ts) % 1000) := by
  unfold goMod
  rw [Int.tmod_def, tdiv_of_pos ts 1000 (by norm_num)]
  rw [wrapInt64_of_range] <;> split <;> omega

theorem goDiv_billion (x : Int) (h1 : -2 ^ 63 ≤ x) (h2 : x < 2 ^ 63) :
    goDiv x 1000000000 =
      if 0 ≤ x then x / 1000000000 else -((-x) / 1000000000) := by
  unfold goDiv
  rw [tdiv_of_pos x 1000000000 (by norm_num)]
  apply wrapInt64_of_range <;> split <;> omega

/-- C6: for every `int64` millisecond timestamp `ts`, negative ones included,
`File.LastModified` yields the instant `ts` milliseconds after the epoch: the
second component is `floor(ts / 1000)`, the nanosecond remainder is
`(ts mod 1000) * 1000000` (floor modulus), it lies in `[0, 10^9)`, and
`seconds * 1000 + remainder / 1000000 = ts`. -/
theorem C6_lastModified (ts : Int) (h1 : -2 ^ 63 ≤ ts) (h2 : ts < 2 ^ 63) :
    (LastModified ts).sec = Int.fdiv ts 1000 ∧
    (LastModified ts).nsec = Int.fmod ts 1000 * 1000000 ∧
    0 ≤ (LastModified ts).nsec ∧ (LastModified ts).nsec < 1000000000 ∧
    (LastModified ts).sec * 1000 + (LastModified ts).nsec / 1000000 = ts := by
  rw [Int.fdiv_eq_ediv ts (by norm_num), Int.fmod_eq_emod ts (by norm_num)]
  have key : LastModified ts = { sec := ts / 1000, nsec := ts % 1000 * 1000000 } := by
    unfold LastModified
    rw [goDiv_thousand ts h1 h2, goMod_thousand ts]
    by_cases hts : 0 ≤ ts
    · simp only [hts, if_true]
      rw [wrapInt64_of_range _ (by omega) (by omega)]
      unfold timeUnix
      rw [if_neg (by omega)]
    · simp only [hts, if_false]
      rw [wrapInt64_of_range _ (by omega) (by omega)]
      unfold timeUnix
      by_cases hz : (-ts) % 1000 = 0
      · rw [if_neg (by omega)]
        congr 1 <;> omega
      · have hn : goDiv (-(-ts % 1000) * 1000000) 1000000000 = 0 := by
          rw [goDiv_billion _ (by omega) (by omega), if_neg (by omega)]
          omega
        have hw0 : wrapInt64 0 = 0 := wrapInt64_of_range 0 (by norm_num) (by norm_num)
        rw [if_pos (by omega)]
        simp only [hn, zero_mul, add_zero, sub_zero, hw0]
        rw [wrapInt64_of_range (-(-ts / 1000)) (by omega) (by omega)]
        rw [wrapInt64_of_range (-(-ts % 1000) * 1000000) (by omega) (by omega)]
        rw [if_pos (by omega)]
        rw [wrapInt64_of_range _ (by omega) (by omega)]
        rw [wrapInt64_of_range _ (by omega) (by omega)]
        congr 1 <;> omega
  rw [key]
  refine ⟨rfl, rfl, ?_, ?_, ?_⟩ <;> simp only <;> omega

theorem C6_lastModified_witness :
    (LastModified 1600000000500).sec = Int.fdiv 1600000000500 1000 ∧
    (LastModified 1600000000500).nsec = Int.fmod 1600000000500 1000 * 1000000 ∧
    0 ≤ (LastModified 1600000000500).nsec ∧
    (LastModified 1600000000500).nsec < 1000000000 ∧
    (LastModified 1600000000500).sec * 1000 +
      (LastModified 1600000000500).nsec / 1000000 = 1600000000500 :=
  C6_lastModified 1600000000500 (by norm_num) (by norm_num)

/-- The timestamp 1600000000500 ms is second 1600000000 plus 500000000 ns, and
one millisecond before the epoch is second -1 plus 999000000 ns. -/
theorem lastModified_examples :
    LastModified 1600000000500 = { sec := 1600000000, nsec := 500000000 } ∧
    LastModified (-1) = { sec := -1, nsec := 999000000 } := by
  decide

/-! ## The terminal handler, `Read` after failure, `Abort` -/

/-- The reader the handler leaves, written out field by field. -/
theorem handler_fst (r : Reader) (st : FileReaderState) :
    (handler r st).1 =
      { r := some (bytesNewReader (uint8ArrayBytes st.result)),
        err :=
          match st.error with
          | some e => some (GoError.jsError e)
          | none =>
            if st.readyState ≠ 2 then some (GoError.errorsNew "Unexpected readyState")
            else r.err,
        done := true,
        fr := none } := by
  rcases r with ⟨br, er, dn, f⟩
  rcases st with ⟨e, rs, res⟩
  cases e <;> cases dn <;> by_cases h : rs = 2 <;> simp [handler, h]

theorem handler_snd (r : Reader) (st : FileReaderState) (hd : r.done = false) :
    (handler r st).2 = none := by
  rcases r with ⟨br, er, dn, f⟩
  rcases st with ⟨e, rs, res⟩
  simp only at hd
  subst hd
  cases e <;> by_cases h : rs = 2 <;> simp [handler, h]

theorem handler_fr (r : Reader) (st : FileReaderState) : (handler r st).1.fr = none := by
  rw [handler_fst]

theorem handler_done (r : Reader) (st : FileReaderState) : (handler r st).1.done = true := by
  rw [handler_fst]

theorem read_failed (s : Reader) (e : GoError) (p : List Byte)
    (hd : s.done = true) (he : s.err = some e) :
    s.Read p = (ReadOutcome.returned 0 (some e) p, s) := by
  unfold Reader.Read
  simp [hd, he]

theorem readSeq_failed (s : Reader) (e : GoError) (hd : s.done = true) (he : s.err = some e)
    (ps : List (List Byte)) :
    readSeq s ps = (ps.map (fun p => ReadOutcome.returned 0 (some e) p), s) := by
  induction ps with
  | nil => rfl
  | cons p ps ih => simp only [readSeq, read_failed s e p hd he, ih, List.map_cons]

theorem abort_no_handle (s : Reader) (o : CallOutcome) (h : s.fr = none) :
    s.Abort o =
      (AbortResult.returned (some (GoError.errorsNew "Read not in progress")), s, []) := by
  simp [Reader.Abort, abortBody, abortDeferred, h]

theorem abort_returns (s : Reader) (f : JsObject) (h : s.fr = some f) :
    s.Abort CallOutcome.returns =
      (AbortResult.returned none, s, [PlatformCall.call f "abort" []]) := by
  simp [Reader.Abort, abortBody, abortDeferred, h]

/-- A string panic of the platform's abort call is recovered into an error. -/
theorem abort_recovers_string (s : Reader) (f : JsObject) (msg : String) (h : s.fr = some f) :
    s.Abort (CallOutcome.panics (PanicValue.str msg)) =
      (AbortResult.returned (some (GoError.errorsNew msg)), s,
        [PlatformCall.call f "abort" []]) := by
  simp [Reader.Abort, abortBody, abortDeferred, h]

/-- C2: for every Reader in the Failed state (the channel is closed and the
handler captured the error `e`) and every buffer `p`, `Read(p)` returns 0 bytes
with exactly `e`, leaves `p` as it was and the reader as it was; so the same
holds for the first call after the failure and for every later one. -/
theorem C2_read_failed (s : Reader) (e : GoError) (p : List Byte)
    (hd : s.done = true) (he : s.err = some e) :
    s.Read p = (ReadOutcome.returned 0 (some e) p, s) ∧
    (s.Read p).1.bytes = [] ∧
    ∀ ps : List (List Byte),
      readSeq s ps = (ps.map (fun q => ReadOutcome.returned 0 (some e) q), s) := by
  refine ⟨read_failed s e p hd he, ?_, readSeq_failed s e hd he⟩
  rw [read_failed s e p hd he]
  simp [ReadOutcome.bytes]

theorem C2_read_failed_witness :
    (handler (NewReader ⟨0⟩ ⟨1⟩).1 ⟨some ⟨7⟩, 2, some [1, 2, 3]⟩).1.done = true ∧
    (handler (NewReader ⟨0⟩ ⟨1⟩).1 ⟨some ⟨7⟩, 2, some [1, 2, 3]⟩).1.err
      = some (GoError.jsError ⟨7⟩) ∧
    ((handler (NewReader ⟨0⟩ ⟨1⟩).1 ⟨some ⟨7⟩, 2, some [1, 2, 3]⟩).1.Read [9, 9]
      = (ReadOutcome.returned 0 (some (GoError.jsError ⟨7⟩)) [9, 9],
          (handler (NewReader ⟨0⟩ ⟨1⟩).1 ⟨some ⟨7⟩, 2, some [1, 2, 3]⟩).1) ∧
     ((handler (NewReader ⟨0⟩ ⟨1⟩).1 ⟨some ⟨7⟩, 2, some [1, 2, 3]⟩).1.Read [9, 9]).1.bytes
      = [] ∧
     ∀ ps : List (List Byte),
      readSeq (handler (NewReader ⟨0⟩ ⟨1⟩).1 ⟨some ⟨7⟩, 2, some [1, 2, 3]⟩).1 ps
        = (ps.map (fun q => ReadOutcome.returned 0 (some (GoError.jsError ⟨7⟩)) q),
            (handler (NewReader ⟨0⟩ ⟨1⟩).1 ⟨some ⟨7⟩, 2, some [1, 2, 3]⟩).1)) :=
  ⟨rfl, rfl, C2_read_failed _ (GoError.jsError ⟨7⟩) [9, 9] rfl rfl⟩

/-- C9: the handler, run on a pending reader, captures the platform's error
object when the platform reports one; otherwise "Unexpected readyState" when
`readyState` is not 2; otherwise no error. It does not panic. Hence with no
platform error and `readyState != 2` every later `Read` fails with that error,
and a platform error wins over the `readyState` check. -/
theorem C9_handler_classification (r : Reader) (st : FileReaderState)
    (hd : r.done = false) (he : r.err = none) :
    (handler r st).2 = none ∧
    (handler r st).1.err =
      (match st.error with
       | some e => some (GoError.jsError e)
       | none =>
         if st.readyState ≠ 2 then some (GoError.errorsNew "Unexpected readyState")
         else none) ∧
    (st.error = none → st.readyState ≠ 2 →
      ∀ ps : List (List Byte),
        (readSeq (handler r st).1 ps).1 =
          ps.map (fun q =>
            ReadOutcome.returned 0 (some (GoError.errorsNew "Unexpected readyState")) q)) ∧
    (∀ e, st.error = some e →
      ∀ ps : List (List Byte),
        (readSeq (handler r st).1 ps).1 =
          ps.map (fun q => ReadOutcome.returned 0 (some (GoError.jsError e)) q)) := by
  have herr : (handler r st).1.err =
      (match st.error with
       | some e => some (GoError.jsError e)
       | none =>
         if st.readyState ≠ 2 then some (GoError.errorsNew "Unexpected readyState")
         else none) := by
    rw [handler_fst, he]
  refine ⟨handler_snd r st hd, herr, ?_, ?_⟩
  · intro h1 h2 ps
    rw [h1] at herr
    simp only [h2, ne_eq, not_false_eq_true, if_true] at herr
    rw [readSeq_failed _ _ (handler_done r st) herr]
  · intro e h1 ps
    rw [h1] at herr
    rw [readSeq_failed _ _ (handler_done r st) herr]

theorem C9_handler_classification_witness :
    (NewReader ⟨0⟩ ⟨1⟩).1.done = false ∧ (NewReader ⟨0⟩ ⟨1⟩).1.err = none ∧
    ((handler (NewReader ⟨0⟩ ⟨1⟩).1 ⟨none, 1, none⟩).2 = none ∧
    (handler (NewReader ⟨0⟩ ⟨1⟩).1 ⟨none, 1, none⟩).1.err =
      (match (⟨none, 1, none⟩ : FileReaderState).error with
       | some e => some (GoError.jsError e)
       | none =>
         if (⟨none, 1, none⟩ : FileReaderState).readyState ≠ 2 then
           some (GoError.errorsNew "Unexpected readyState")
         else none) ∧
    ((⟨none, 1, none⟩ : FileReaderState).error = none →
      (⟨none, 1, none⟩ : FileReaderState).readyState ≠ 2 →
      ∀ ps : List (List Byte),
        (readSeq (handler (NewReader ⟨0⟩ ⟨1⟩).1 ⟨none, 1, none⟩).1 ps).1 =
          ps.map (fun q =>
            ReadOutcome.returned 0 (some (GoError.errorsNew "Unexpected readyState")) q)) ∧
    (∀ e, (⟨none, 1, none⟩ : FileReaderState).error = some e →
      ∀ ps : List (List Byte),
        (readSeq (handler (NewReader ⟨0⟩ ⟨1⟩).1 ⟨none, 1, none⟩).1 ps).1 =
          ps.map (fun q => ReadOutcome.returned 0 (some (GoError.jsError e)) q))) :=
  ⟨rfl, rfl, C9_handler_classification _ ⟨none, 1, none⟩ rfl rfl⟩

/-- C4: for every Reader whose handle has been cleared (which the terminal
handler does, and nothing undoes), `Abort` returns the error "Read not in
progress", makes no request of the platform, and leaves the reader (content,
cursor, error) as it was, so every `Read` afterwards is what it would have been
without the `Abort`. -/
theorem C4_abort_after_terminal (s : Reader) (o : CallOutcome) (h : s.fr = none) :
    (s.Abort o).1 = AbortResult.returned (some (GoError.errorsNew "Read not in progress")) ∧
    (s.Abort o).2.2 = [] ∧
    (s.Abort o).2.1 = s ∧
    ∀ ps : List (List Byte), readSeq (s.Abort o).2.1 ps = readSeq s ps := by
  rw [abort_no_handle s o h]
  exact ⟨rfl, rfl, rfl, fun _ => rfl⟩

theorem C4_abort_after_terminal_witness :
    (handler (NewReader ⟨0⟩ ⟨1⟩).1 ⟨none, 2, some [104, 105]⟩).1.fr = none ∧
    (((handler (NewReader ⟨0⟩ ⟨1⟩).1 ⟨none, 2, some [104, 105]⟩).1.Abort
        CallOutcome.returns).1
      = AbortResult.returned (some (GoError.errorsNew "Read not in progress")) ∧
    ((handler (NewReader ⟨0⟩ ⟨1⟩).1 ⟨none, 2, some [104, 105]⟩).1.Abort
        CallOutcome.returns).2.2 = [] ∧
    ((handler (NewReader ⟨0⟩ ⟨1⟩).1 ⟨none, 2, some [104, 105]⟩).1.Abort
        CallOutcome.returns).2.1
      = (handler (NewReader ⟨0⟩ ⟨1⟩).1 ⟨none, 2, some [104, 105]⟩).1 ∧
    ∀ ps : List (List Byte),
      readSeq ((handler (NewReader ⟨0⟩ ⟨1⟩).1 ⟨none, 2, some [104, 105]⟩).1.Abort
        CallOutcome.returns).2.1 ps
      = readSeq (handler (NewReader ⟨0⟩ ⟨1⟩).1 ⟨none, 2, some [104, 105]⟩).1 ps) :=
  ⟨rfl, C4_abort_after_terminal _ CallOutcome.returns rfl⟩

/-- C5, as stated, fails: on a fresh reader, with the platform's abort call
returning normally and no event handled, the second `Abort` in a row returns nil
like the first; it is not the "Read not in progress" error. -/
theorem C5_second_abort_succeeds :
    ((NewReader ⟨0⟩ ⟨1⟩).1.Abort CallOutcome.returns).1 = AbortResult.returned none ∧
    (((NewReader ⟨0⟩ ⟨1⟩).1.Abort CallOutcome.returns).2.1.Abort CallOutcome.returns).1
      = AbortResult.returned none ∧
    (((NewReader ⟨0⟩ ⟨1⟩).1.Abort CallOutcome.returns).2.1.Abort CallOutcome.returns).1
      ≠ AbortResult.returned (some (GoError.errorsNew "Read not in progress")) := by
  refine ⟨rfl, rfl, ?_⟩
  intro h
  cases h

/-- C5, amended: `Abort` never clears the handle. For every reader with a
handle, two `Abort` calls in a row whose platform calls return normally both
ask the platform to abort and both return nil, leaving the reader as it was;
the "Read not in progress" error comes only once the terminal handler has run. -/
theorem C5_double_abort (s : Reader) (f : JsObject) (st : FileReaderState)
    (o : CallOutcome) (h : s.fr = some f) :
    s.Abort CallOutcome.returns
      = (AbortResult.returned none, s, [PlatformCall.call f "abort" []]) ∧
    (s.Abort CallOutcome.returns).2.1.Abort CallOutcome.returns
      = (AbortResult.returned none, s, [PlatformCall.call f "abort" []]) ∧
    ((handler (s.Abort CallOutcome.returns).2.1 st).1.Abort o).1
      = AbortResult.returned (some (GoError.errorsNew "Read not in progress")) := by
  rw [abort_returns s f h]
  refine ⟨rfl, abort_returns s f h, ?_⟩
  rw [abort_no_handle _ o (handler_fr s st)]

theorem C5_double_abort_witness :
    (NewReader ⟨0⟩ ⟨1⟩).1.fr = some ⟨1⟩ ∧
    ((NewReader ⟨0⟩ ⟨1⟩).1.Abort CallOutcome.returns
      = (AbortResult.returned none, (NewReader ⟨0⟩ ⟨1⟩).1,
          [PlatformCall.call ⟨1⟩ "abort" []]) ∧
    ((NewReader ⟨0⟩ ⟨1⟩).1.Abort CallOutcome.returns).2.1.Abort CallOutcome.returns
      = (AbortResult.returned none, (NewReader ⟨0⟩ ⟨1⟩).1,
          [PlatformCall.call ⟨1⟩ "abort" []]) ∧
    ((handler ((NewReader ⟨0⟩ ⟨1⟩).1.Abort CallOutcome.returns).2.1
        ⟨none, 2, none⟩).1.Abort CallOutcome.returns).1
      = AbortResult.returned (some (GoError.errorsNew "Read not in progress"))) :=
  ⟨rfl, C5_double_abort _ ⟨1⟩ ⟨none, 2, none⟩ CallOutcome.returns rfl⟩

/-- C8, the code at the failing input: on a pending reader, when the platform's
abort call raises a JavaScript exception (which reaches Go as a panic carrying
a `*js.Error`), the deferred `r.(string)` panics in turn and `Abort` ends in a
panic instead of returning an error. -/
theorem C8_abort_panics_on_js_error :
    ((NewReader ⟨0⟩ ⟨1⟩).1.Abort (CallOutcome.panics (PanicValue.jsError ⟨2⟩))).1
      = AbortResult.panicked (PanicValue.runtimeError "interface conversion: not a string") :=
  rfl

/-- C10, the code at every input: `NewReader` registers its handler on the
platform reader under the names "loaded", "onerror" and "onabort", and under
none of the platform's event names "load", "error", "abort". -/
theorem C10_listener_names (b fr : JsObject) :
    registeredNames fr (NewReader b fr).2 = ["loaded", "onerror", "onabort"] ∧
    "load" ∉ registeredNames fr (NewReader b fr).2 ∧
    "error" ∉ registeredNames fr (NewReader b fr).2 ∧
    "abort" ∉ registeredNames fr (NewReader b fr).2 := by
  have h : registeredNames fr (NewReader b fr).2 = ["loaded", "onerror", "onabort"] := by
    simp [NewReader, eventAddEventListener, registeredNames]
  rw [h]
  refine ⟨rfl, ?_, ?_, ?_⟩ <;> decide

/-! ## `Read` on a completed reader -/

theorem read_completed (s : Reader) (c : List Byte) (i : Nat) (p : List Byte)
    (hd : s.done = true) (he : s.err = none) (hr : s.r = some ⟨c, i⟩) (hi : i ≤ c.length) :
    s.Read p =
      (specRead c i p, { s with r := some ⟨c, i + min p.length (c.length - i)⟩ }) := by
  rcases s with ⟨br, er, dn, f⟩
  simp only at hd he hr
  subst hd he hr
  by_cases h : i = c.length
  · subst h
    simp [Reader.Read, BytesReader.Read, specRead]
  · have hlt : i < c.length := lt_of_le_of_ne hi h
    have hn : ¬ c.length ≤ i := not_le.mpr hlt
    simp [Reader.Read, BytesReader.Read, specRead, goCopy, h, hn, List.length_drop]

theorem specRead_bytes (c : List Byte) (i : Nat) (p : List Byte) :
    (specRead c i p).bytes = (c.drop i).take (min p.length (c.length - i)) := by
  simp only [specRead, ReadOutcome.bytes]
  rw [List.take_append_of_le_length]
  · rw [List.take_take, min_self]
  · rw [List.length_take, List.length_drop]
    omega

theorem specRead_isEOF (c : List Byte) (i : Nat) (p : List Byte) :
    (specRead c i p).isEOF = decide (i = c.length) := by
  by_cases h : i = c.length <;> simp [specRead, ReadOutcome.isEOF, h]

theorem readSeq_completed (c : List Byte) (ps : List (List Byte)) :
    ∀ (s : Reader) (i : Nat), s.done = true → s.err = none → s.r = some ⟨c, i⟩ →
      i ≤ c.length →
      readSeq s ps = (specSeq c i ps, { s with r := some ⟨c, specCursor c i ps⟩ }) := by
  induction ps with
  | nil =>
    intro s i _ _ hr _
    rcases s with ⟨br, er, dn, f⟩
    simp only at hr
    subst hr
    rfl
  | cons p ps ih =>
    intro s i hd he hr hi
    simp only [readSeq, specSeq, specCursor]
    rw [read_completed s c i p hd he hr hi]
    simp only
    rw [ih { s with r := some ⟨c, i + min p.length (c.length - i)⟩ }
      (i + min p.length (c.length - i)) hd he rfl (by omega)]

theorem specCursor_eq (c : List Byte) (ps : List (List Byte)) :
    ∀ i, i ≤ c.length → specCursor c i ps = min c.length (i + (ps.map List.length).sum) := by
  induction ps with
  | nil => intro i hi; simp [specCursor, hi]
  | cons p ps ih =>
    intro i hi
    simp only [specCursor, List.map_cons, List.sum_cons]
    rw [ih _ (by omega)]
    omega

theorem specSeq_getElem (c : List Byte) (ps : List (List Byte)) :
    ∀ (i k : Nat) (p : List Byte), i ≤ c.length → ps[k]? = some p →
      (specSeq c i ps)[k]? =
        some (specRead c (min c.length (i + ((ps.take k).map List.length).sum)) p) := by
  induction ps with
  | nil => intro i k p _ h; simp at h
  | cons q ps ih =>
    intro i k p hi h
    cases k with
    | zero =>
      simp only [List.getElem?_cons_zero, Option.some.injEq] at h
      subst h
      simp [specSeq, hi]
    | succ k =>
      simp only [List.getElem?_cons_succ] at h
      simp only [specSeq, List.getElem?_cons_succ, List.take_succ_cons, List.map_cons,
        List.sum_cons]
      rw [ih _ k p (by omega) h]
      congr 2
      omega

theorem collect_specSeq (c : List Byte) (ps : List (List Byte)) :
    ∀ i, i ≤ c.length →
      collect (specSeq c i ps) = (c.drop i).take ((ps.map List.length).sum) := by
  induction ps with
  | nil => intro i _; simp [specSeq, collect]
  | cons p ps ih =>
    intro i hi
    simp only [specSeq, List.map_cons, List.sum_cons]
    by_cases h : i = c.length
    · subst h
      simp [specRead, collect, ReadOutcome.bytes]
    · have hb := specRead_bytes c i p
      simp only [specRead, h, if_false] at hb ⊢
      simp only [collect]
      simp only [ReadOutcome.bytes] at hb
      rw [hb, ih _ (by omega), List.take_add]
      by_cases hp : p.length ≤ c.length - i
      · rw [min_eq_left hp, List.drop_drop]
      · have hp2 : c.length - i ≤ p.length := by omega
        rw [min_eq_right hp2]
        have hl : (c.drop i).length = c.length - i := List.length_drop i c
        have e1 : (c.drop i).take (c.length - i) = c.drop i :=
          List.take_of_length_le (by omega)
        have e2 : (c.drop i).take p.length = c.drop i :=
          List.take_of_length_le (by omega)
        have e3 : c.drop (i + (c.length - i)) = [] :=
          List.drop_of_length_le (by omega)
        have e4 : (c.drop i).drop p.length = [] :=
          List.drop_of_length_le (by omega)
        rw [e1, e2, e3, e4]

theorem specSeq_eof_reached (c : List Byte) (ps : List (List Byte)) :
    ∀ i, (specSeq c i ps).any ReadOutcome.isEOF = true →
      c.length ≤ i + (ps.map List.length).sum := by
  induction ps with
  | nil => intro i h; simp [specSeq] at h
  | cons p ps ih =>
    intro i h
    simp only [specSeq, List.any_cons, Bool.or_eq_true, specRead_isEOF, decide_eq_true_eq] at h
    simp only [List.map_cons, List.sum_cons]
    rcases h with h | h
    · omega
    · have := ih _ h
      omega

theorem specSeq_eof_exists (c : List Byte) (ps : List (List Byte)) :
    ∀ i, i ≤ c.length → (∀ p ∈ ps, p ≠ []) → c.length - i < ps.length →
      (specSeq c i ps).any ReadOutcome.isEOF = true := by
  induction ps with
  | nil => intro i _ _ h; simp at h
  | cons p ps ih =>
    intro i hi hne hlen
    simp only [specSeq, List.any_cons, Bool.or_eq_true, specRead_isEOF, decide_eq_true_eq]
    by_cases h : i = c.length
    · exact Or.inl h
    · right
      have hp : p ≠ [] := hne p (List.mem_cons_self p ps)
      have hpl : 0 < p.length := List.length_pos.mpr hp
      simp only [List.length_cons] at hlen
      apply ih _ (by omega) (fun q hq => hne q (List.mem_cons_of_mem p hq))
      omega

theorem specSeq_exhausted (c : List Byte) (ps : List (List Byte)) :
    specSeq c c.length ps = ps.map (fun p => ReadOutcome.returned 0 (some GoError.EOF) p) := by
  induction ps with
  | nil => rfl
  | cons p ps ih =>
    simp only [specSeq, List.map_cons, Nat.sub_self, Nat.min_zero, Nat.add_zero, ih]
    simp [specRead]

theorem specSeq_eof_persists (c : List Byte) (ps : List (List Byte)) :
    ∀ (i j k : Nat) (o : ReadOutcome), j ≤ k → (specSeq c i ps)[j]? = some o →
      o.isEOF = true →
      (specSeq c i ps)[k]? =
        ps[k]?.map (fun p => ReadOutcome.returned 0 (some GoError.EOF) p) := by
  induction ps with
  | nil => intro i j k o _ h; simp [specSeq] at h
  | cons p ps ih =>
    intro i j k o hjk hj ho
    cases j with
    | zero =>
      simp only [specSeq, List.getElem?_cons_zero, Option.some.injEq] at hj
      subst hj
      rw [specRead_isEOF, decide_eq_true_eq] at ho
      subst ho
      rw [specSeq_exhausted, List.getElem?_map]
    | succ j =>
      cases k with
      | zero => omega
      | succ k =>
        simp only [specSeq, List.getElem?_cons_succ] at hj ⊢
        exact ih _ j k o (by omega) hj ho

/-- Reading "hello world" through four-byte buffers: "hell", "o wo", "rld"
(the last byte of the buffer is left from the previous call), then end of
content. -/
theorem helloReader_reads :
    (readSeq helloReader helloBufs).1 =
      [ReadOutcome.returned 4 none [104, 101, 108, 108],
       ReadOutcome.returned 4 none [111, 32, 119, 111],
       ReadOutcome.returned 3 none [114, 108, 100, 0],
       ReadOutcome.returned 0 (some GoError.EOF) [0, 0, 0, 0]] ∧
    collect (readSeq helloReader helloBufs).1 = helloWorld := by
  decide

/-- C1: on a Reader whose terminal handler stored content `c` with no error,
a `Read` at cursor `i` with buffer `p` returns `n = min(len p, len c - i)`
bytes, equal to `c[i .. i+n)`, and moves the cursor to `i + n`, with end of
content exactly when `i = len c`; in a sequence of calls the `k`-th one is the
call at cursor `min(len c, total length of the earlier buffers)`; the bytes
collected up to the first end of content are `c`; with non-empty buffers end of
content is reached within `len c + 1` calls; and once returned it is returned,
with 0 bytes, by every later call. -/
theorem C1_read_completed (s : Reader) (c : List Byte) (ps : List (List Byte))
    (hd : s.done = true) (he : s.err = none) (hr : s.r = some (bytesNewReader c))
    (hne : ∀ p ∈ ps, p ≠ []) :
    (∀ (i : Nat) (p : List Byte), i ≤ c.length →
      ({ s with r := some ⟨c, i⟩ } : Reader).Read p =
        (ReadOutcome.returned (min p.length (c.length - i))
            (if i = c.length then some GoError.EOF else none)
            ((c.drop i).take (min p.length (c.length - i)) ++
              p.drop (min p.length (c.length - i))),
          { s with r := some ⟨c, i + min p.length (c.length - i)⟩ }) ∧
      (({ s with r := some ⟨c, i⟩ } : Reader).Read p).1.bytes =
        (c.drop i).take (min p.length (c.length - i)) ∧
      ((({ s with r := some ⟨c, i⟩ } : Reader).Read p).1.isEOF = true ↔ i = c.length)) ∧
    (∀ (k : Nat) (p : List Byte), ps[k]? = some p →
      (readSeq s ps).1[k]? =
        some (({ s with
          r := some ⟨c, min c.length ((ps.take k).map List.length).sum⟩ } : Reader).Read p).1) ∧
    (readSeq s ps).2 = { s with r := some ⟨c, min c.length (ps.map List.length).sum⟩ } ∧
    collect (readSeq s ps).1 = c.take (ps.map List.length).sum ∧
    ((readSeq s ps).1.any ReadOutcome.isEOF = true → collect (readSeq s ps).1 = c) ∧
    (c.length < ps.length → (readSeq s ps).1.any ReadOutcome.isEOF = true) ∧
    (∀ (j k : Nat) (o : ReadOutcome), j ≤ k → (readSeq s ps).1[j]? = some o →
      o.isEOF = true →
      (readSeq s ps).1[k]? =
        ps[k]?.map (fun p => ReadOutcome.returned 0 (some GoError.EOF) p)) := by
  have hseq := readSeq_completed c ps s 0 hd he hr (Nat.zero_le _)
  have hone : ∀ (i : Nat) (p : List Byte), i ≤ c.length →
      ({ s with r := some ⟨c, i⟩ } : Reader).Read p =
        (specRead c i p, { s with r := some ⟨c, i + min p.length (c.length - i)⟩ }) :=
    fun i p hi => read_completed { s with r := some ⟨c, i⟩ } c i p hd he rfl hi
  refine ⟨?_, ?_, ?_, ?_, ?_, ?_, ?_⟩
  · intro i p hi
    rw [hone i p hi]
    refine ⟨rfl, specRead_bytes c i p, ?_⟩
    simp only [specRead_isEOF, decide_eq_true_eq]
  · intro k p hk
    rw [hseq, hone _ p (Nat.min_le_left _ _)]
    simp only
    have := specSeq_getElem c ps 0 k p (Nat.zero_le _) hk
    simpa using this
  · rw [hseq, specCursor_eq c ps 0 (Nat.zero_le _)]
    simp
  · rw [hseq]
    simp only
    rw [collect_specSeq c ps 0 (Nat.zero_le _), List.drop_zero]
  · rw [hseq]
    simp only
    intro h
    have hlen := specSeq_eof_reached c ps 0 h
    rw [collect_specSeq c ps 0 (Nat.zero_le _), List.drop_zero]
    exact List.take_of_length_le (by omega)
  · intro h
    rw [hseq]
    exact specSeq_eof_exists c ps 0 (Nat.zero_le _) hne (by omega)
  · intro j k o hjk hj ho
    rw [hseq] at hj ⊢
    exact specSeq_eof_persists c ps 0 j k o hjk hj ho

theorem C1_read_completed_witness :
    helloReader.done = true ∧ helloReader.err = none ∧
    helloReader.r = some (bytesNewReader helloWorld) ∧
    (∀ p ∈ helloBufs, p ≠ []) ∧
    (readSeq helloReader helloBufs).1.any ReadOutcome.isEOF = true ∧
    collect (readSeq helloReader helloBufs).1 = helloWorld :=
  ⟨rfl, rfl, rfl, by decide, by decide,
    (C1_read_completed helloReader helloWorld helloBufs rfl rfl rfl (by decide)).2.2.2.2.1
      (by decide)⟩

/-- C3, as stated, fails: on a fresh reader `Abort` succeeds, and when the
abort notification is handled with the platform reporting what a FileReader
reports after `abort()` (no error object, `readyState` 2, null result), `Read`
returns 0 bytes with `io.EOF`, the ordinary end of content. -/
theorem C3_read_after_abort_is_eof :
    ((NewReader ⟨0⟩ ⟨1⟩).1.Abort CallOutcome.returns).1 = AbortResult.returned none ∧
    (handler ((NewReader ⟨0⟩ ⟨1⟩).1.Abort CallOutcome.returns).2.1 ⟨none, 2, none⟩).2 = none ∧
    ((handler ((NewReader ⟨0⟩ ⟨1⟩).1.Abort CallOutcome.returns).2.1
        ⟨none, 2, none⟩).1.Read [0, 0]).1
      = ReadOutcome.returned 0 (some GoError.EOF) [0, 0] ∧
    ((handler ((NewReader ⟨0⟩ ⟨1⟩).1.Abort CallOutcome.returns).2.1
        ⟨none, 2, none⟩).1.Read [0, 0]).1.isEOF = true := by
  decide

/-- C3, amended: on a pending reader, `Abort` asks the platform to abort and,
when that call returns normally, returns nil and leaves the reader as it was.
Once the abort notification has been handled, `Read` gives what the handler's
classification gives: the platform's error object if there is one,
"Unexpected readyState" if `readyState` is not 2, and otherwise the bytes of
the platform's result, so 0 bytes and `io.EOF` when the result is null or
empty. -/
theorem C3_abort_then_read (s : Reader) (f : JsObject) (st : FileReaderState)
    (p : List Byte) (hf : s.fr = some f) (hd : s.done = false) (he : s.err = none) :
    s.Abort CallOutcome.returns
      = (AbortResult.returned none, s, [PlatformCall.call f "abort" []]) ∧
    (handler (s.Abort CallOutcome.returns).2.1 st).2 = none ∧
    ((handler (s.Abort CallOutcome.returns).2.1 st).1.Read p).1 =
      (match st.error with
       | some e => ReadOutcome.returned 0 (some (GoError.jsError e)) p
       | none =>
         if st.readyState ≠ 2 then
           ReadOutcome.returned 0 (some (GoError.errorsNew "Unexpected readyState")) p
         else
           ReadOutcome.returned (min p.length (uint8ArrayBytes st.result).length)
             (if (uint8ArrayBytes st.result).length = 0 then some GoError.EOF else none)
             ((uint8ArrayBytes st.result).take (min p.length (uint8ArrayBytes st.result).length)
               ++ p.drop (min p.length (uint8ArrayBytes st.result).length))) := by
  rw [abort_returns s f hf]
  refine ⟨rfl, handler_snd s st hd, ?_⟩
  simp only
  have hdone := handler_done s st
  have herr : (handler s st).1.err =
      (match st.error with
       | some e => some (GoError.jsError e)
       | none =>
         if st.readyState ≠ 2 then some (GoError.errorsNew "Unexpected readyState")
         else none) := by
    rw [handler_fst, he]
  cases hE : st.error with
  | some e =>
    rw [hE] at herr
    rw [read_failed _ _ p hdone herr]
  | none =>
    rw [hE] at herr
    by_cases h2 : st.readyState = 2
    · simp only [h2, ne_eq, not_true_eq_false, if_false] at herr ⊢
      have hr : (handler s st).1.r = some ⟨uint8ArrayBytes st.result, 0⟩ := by
        rw [handler_fst]
        rfl
      rw [read_completed _ _ 0 p hdone herr hr (Nat.zero_le _)]
      simp only [specRead, Nat.sub_zero, List.drop_zero]
      congr 1
      by_cases hz : (uint8ArrayBytes st.result).length = 0
      · simp [hz]
      · have hz2 : ¬ 0 = (uint8ArrayBytes st.result).length := fun h => hz h.symm
        simp [hz, hz2]
    · simp only [h2, ne_eq, not_false_eq_true, if_true] at herr ⊢
      rw [read_failed _ _ p hdone herr]

theorem C3_abort_then_read_witness :
    (NewReader ⟨0⟩ ⟨1⟩).1.fr = some ⟨1⟩ ∧ (NewReader ⟨0⟩ ⟨1⟩).1.done = false ∧
    (NewReader ⟨0⟩ ⟨1⟩).1.err = none ∧
    ((NewReader ⟨0⟩ ⟨1⟩).1.Abort CallOutcome.returns
      = (AbortResult.returned none, (NewReader ⟨0⟩ ⟨1⟩).1,
          [PlatformCall.call ⟨1⟩ "abort" []]) ∧
    (handler ((NewReader ⟨0⟩ ⟨1⟩).1.Abort CallOutcome.returns).2.1 ⟨some ⟨5⟩, 2, none⟩).2
      = none ∧
    ((handler ((NewReader ⟨0⟩ ⟨1⟩).1.Abort CallOutcome.returns).2.1
        ⟨some ⟨5⟩, 2, none⟩).1.Read [0, 0]).1
      = ReadOutcome.returned 0 (some (GoError.jsError ⟨5⟩)) [0, 0]) :=
  ⟨rfl, rfl, rfl, C3_abort_then_read _ ⟨1⟩ ⟨some ⟨5⟩, 2, none⟩ [0, 0] rfl rfl rfl⟩

/-! ## The handle is present exactly while the reader is pending -/

theorem step_abort (r : Reader) (o : CallOutcome) : step r (Op.abort o) = r := rfl

theorem read_fields (r : Reader) (p : List Byte) :
    (r.Read p).2.fr = r.fr ∧ (r.Read p).2.done = r.done ∧ (r.Read p).2.err = r.err := by
  unfold Reader.Read
  split
  · exact ⟨rfl, rfl, rfl⟩
  · split
    · exact ⟨rfl, rfl, rfl⟩
    · split <;> exact ⟨rfl, rfl, rfl⟩

theorem read_pending (r : Reader) (p : List Byte) (h : r.done = false) :
    (r.Read p).2 = r := by
  simp [Reader.Read, h]

theorem step_fr_none (r : Reader) (o : Op) (h : r.fr = none) : (step r o).fr = none := by
  cases o with
  | abort c => exact h
  | read p => exact (read_fields r p).1.trans h
  | terminal st => exact handler_fr r st

theorem step_done (r : Reader) (o : Op) (h : r.done = true) : (step r o).done = true := by
  cases o with
  | abort c => exact h
  | read p => exact (read_fields r p).2.1.trans h
  | terminal st => exact handler_done r st

theorem step_inv (r : Reader) (o : Op) (h : r.fr.isSome = true ↔ r.done = false) :
    (step r o).fr.isSome = true ↔ (step r o).done = false := by
  cases o with
  | abort c => exact h
  | read p =>
    simp only [step]
    rw [(read_fields r p).1, (read_fields r p).2.1]
    exact h
  | terminal st =>
    simp only [step]
    rw [handler_fr, handler_done]
    simp

theorem run_append (r : Reader) (a b : List Op) : run r (a ++ b) = run (run r a) b := by
  induction a generalizing r with
  | nil => rfl
  | cons o a ih => exact ih (step r o)

theorem run_inv (ops : List Op) :
    ∀ r : Reader, (r.fr.isSome = true ↔ r.done = false) →
      ((run r ops).fr.isSome = true ↔ (run r ops).done = false) := by
  induction ops with
  | nil => intro r h; exact h
  | cons o ops ih => intro r h; exact ih (step r o) (step_inv r o h)

theorem run_done (ops : List Op) :
    ∀ r : Reader, r.done = true → (run r ops).done = true := by
  induction ops with
  | nil => intro r h; exact h
  | cons o ops ih => intro r h; exact ih (step r o) (step_done r o h)

theorem run_fr_none (ops : List Op) :
    ∀ r : Reader, r.fr = none → (run r ops).fr = none := by
  induction ops with
  | nil => intro r h; exact h
  | cons o ops ih => intro r h; exact ih (step r o) (step_fr_none r o h)

theorem terminalCount_cons (o : Op) (ops : List Op) :
    terminalCount (o :: ops) = (if o.isTerminal = true then 1 else 0) + terminalCount ops := by
  unfold terminalCount
  by_cases h : o.isTerminal = true
  · rw [List.filter_cons_of_pos h]
    simp [h, Nat.add_comm]
  · rw [List.filter_cons_of_neg h]
    simp [h]

theorem terminalCount_append (a b : List Op) :
    terminalCount (a ++ b) = terminalCount a + terminalCount b := by
  simp [terminalCount, List.filter_append]

/-- Without a terminal event a pending reader stays exactly as it is. -/
theorem run_pending (ops : List Op) :
    ∀ r : Reader, r.done = false → terminalCount ops = 0 → run r ops = r := by
  induction ops with
  | nil => intro r _ _; rfl
  | cons o ops ih =>
    intro r hd hc
    rw [terminalCount_cons] at hc
    cases o with
    | abort c => exact ih r hd (by omega)
    | read p =>
      simp only [run, step]
      rw [read_pending r p hd]
      exact ih r hd (by omega)
    | terminal st => simp [Op.isTerminal] at hc

/-- Without a terminal event the captured error stays as it is. -/
theorem run_err (ops : List Op) :
    ∀ r : Reader, terminalCount ops = 0 → (run r ops).err = r.err := by
  induction ops with
  | nil => intro r _; rfl
  | cons o ops ih =>
    intro r hc
    rw [terminalCount_cons] at hc
    cases o with
    | abort c => exact ih r (by omega)
    | read p =>
      simp only [run, step]
      rw [ih _ (by omega)]
      exact (read_fields r p).2.2
    | terminal st => simp [Op.isTerminal] at hc

/-- C7: `NewReader` leaves the handle present and the signal not fired; after
any sequence of `Abort` calls, `Read` calls and at most one terminal event the
handle is present if and only if the signal has not fired, which is the case if
and only if no terminal event has occurred; the handler clears the handle and
fires the signal in one step; no operation restores the handle or un-fires the
signal; and once the signal has fired, whatever follows leaves it fired, the
handle absent and the captured error as it is. -/
theorem C7_handle_iff_pending (b fr : JsObject) (ops : List Op)
    (h : terminalCount ops ≤ 1) :
    ((NewReader b fr).1.fr = some fr ∧ (NewReader b fr).1.done = false) ∧
    ((run (NewReader b fr).1 ops).fr.isSome = true ↔
      (run (NewReader b fr).1 ops).done = false) ∧
    ((run (NewReader b fr).1 ops).done = false ↔ terminalCount ops = 0) ∧
    (∀ (r : Reader) (st : FileReaderState),
      (handler r st).1.fr = none ∧ (handler r st).1.done = true) ∧
    (∀ (r : Reader) (o : Op),
      (r.fr = none → (step r o).fr = none) ∧ (r.done = true → (step r o).done = true)) ∧
    (∀ more : List Op, terminalCount (ops ++ more) ≤ 1 →
      (run (NewReader b fr).1 ops).done = true →
      (run (NewReader b fr).1 (ops ++ more)).done = true ∧
      (run (NewReader b fr).1 (ops ++ more)).fr = none ∧
      (run (NewReader b fr).1 (ops ++ more)).err = (run (NewReader b fr).1 ops).err) := by
  have hinit : ((NewReader b fr).1.fr.isSome = true ↔ (NewReader b fr).1.done = false) := by
    simp [NewReader]
  have hpend : (run (NewReader b fr).1 ops).done = false ↔ terminalCount ops = 0 := by
    constructor
    · intro hd
      by_contra hc
      -- a terminal event occurs in `ops`: split there
      have key : ∀ (l : List Op) (r : Reader), terminalCount l ≠ 0 → (run r l).done = true := by
        intro l
        induction l with
        | nil => intro r hl; simp [terminalCount] at hl
        | cons o l ih =>
          intro r hl
          cases o with
          | abort c =>
            rw [terminalCount_cons] at hl
            exact ih r (by simpa [Op.isTerminal] using hl)
          | read p =>
            rw [terminalCount_cons] at hl
            exact ih _ (by simpa [Op.isTerminal] using hl)
          | terminal st => exact run_done l _ (handler_done r st)
      rw [key ops _ hc] at hd
      cases hd
    · intro hc
      rw [run_pending ops _ rfl hc]
      rfl
  refine ⟨⟨rfl, rfl⟩, run_inv ops _ hinit, hpend, ?_, ?_, ?_⟩
  · intro r st
    exact ⟨handler_fr r st, handler_done r st⟩
  · intro r o
    exact ⟨step_fr_none r o, step_done r o⟩
  · intro more hmore hd
    rw [run_append]
    have hinv := run_inv ops _ hinit
    have hfr : (run (NewReader b fr).1 ops).fr = none := by
      cases hf : (run (NewReader b fr).1 ops).fr with
      | none => rfl
      | some f =>
        rw [hf] at hinv
        have := hinv.mp rfl
        rw [hd] at this
        cases this
    have hcount : terminalCount ops ≠ 0 := by
      intro hc
      rw [hpend.mpr hc] at hd
      cases hd
    rw [terminalCount_append] at hmore
    exact ⟨run_done more _ hd, run_fr_none more _ hfr, run_err more _ (by omega)⟩

theorem C7_handle_iff_pending_witness :
    terminalCount
      [Op.abort CallOutcome.returns, Op.read [0, 0], Op.terminal ⟨none, 2, some [7, 8]⟩,
        Op.read [0, 0], Op.abort CallOutcome.returns] ≤ 1 ∧
    (run (NewReader ⟨0⟩ ⟨1⟩).1
      [Op.abort CallOutcome.returns, Op.read [0, 0], Op.terminal ⟨none, 2, some [7, 8]⟩,
        Op.read [0, 0], Op.abort CallOutcome.returns]).done = true ∧
    (run (NewReader ⟨0⟩ ⟨1⟩).1
      [Op.abort CallOutcome.returns, Op.read [0, 0], Op.terminal ⟨none, 2, some [7, 8]⟩,
        Op.read [0, 0], Op.abort CallOutcome.returns]).fr = none ∧
    ((run (NewReader ⟨0⟩ ⟨1⟩).1
      [Op.abort CallOutcome.returns, Op.read [0, 0], Op.terminal ⟨none, 2, some [7, 8]⟩,
        Op.read [0, 0], Op.abort CallOutcome.returns]).fr.isSome = true ↔
     (run (NewReader ⟨0⟩ ⟨1⟩).1
      [Op.abort CallOutcome.returns, Op.read [0, 0], Op.terminal ⟨none, 2, some [7, 8]⟩,
        Op.read [0, 0], Op.abort CallOutcome.returns]).done = false) :=
  ⟨by decide, by decide, by decide,
    (C7_handle_iff_pending ⟨0⟩ ⟨1⟩
      [Op.abort CallOutcome.returns, Op.read [0, 0], Op.terminal ⟨none, 2, some [7, 8]⟩,
        Op.read [0, 0], Op.abort CallOutcome.returns] (by decide)).2.1⟩

end Goweb
